import Mathlib

/-!
Verification of the typing-contest backend domain logic.

Shallow embedding of the TypeScript sources:
  - `src/domain/contest.ts`   : contest status and leaderboard visibility;
  - `src/domain/scoring.ts`   : typing statistics, reported-stats comparison,
                                keylog replay, interval analysis and the
                                session-finish evaluator;
  - `src/domain/leaderboard.ts`: leaderboard sorting and ranking;
  - `src/server/fastifyTypes.ts` (TypingStore revision with `maxAttempts` and
                                first-prompt selection): `isBetterScore` and
                                the `finishSession` transaction.

Modelling conventions:
  - JavaScript numbers are embedded as rationals (`ℚ`); `Math.floor` is `⌊·⌋`.
  - ISO-8601 date strings are embedded as their epoch-millisecond values
    (`ℤ`); the sources always parse them with `new Date(...)` before
    comparing, and invalid dates are rejected at ingestion per the spec.
  - A field that can be `undefined`, missing or `NaN` is an `Option`;
    `none` stands for the missing / non-finite case.
  - Thrown errors become `Except` values; a database transaction that throws
    is rolled back, so an error result carries no state change.

The file is organised as definitions first, then the theorems settling the
claims, with their helper lemmas.
-/

namespace TypingBackend

/-! ## Contest domain (src/domain/contest.ts) -/

inductive ContestVisibility
| publicV
| privateV
deriving DecidableEq, Repr

inductive LeaderboardVisibility
| during
| after
| hidden
deriving DecidableEq, Repr

inductive ContestStatus
| scheduled
| running
| finished
deriving DecidableEq, Repr

structure Contest where
  id : String
  title : String
  visibility : ContestVisibility
  startsAt : ℤ
  endsAt : ℤ
  timeLimitSec : ℚ
  maxAttempts : ℕ
  allowBackspace : Bool
  leaderboardVisibility : LeaderboardVisibility
deriving DecidableEq, Repr

structure ContestEntry where
  attemptsUsed : ℕ
deriving DecidableEq, Repr

/-- Embeds `getContestStatus`: `scheduled` if `now < startsAt`, then
`finished` if `now ≥ endsAt`, else `running`. Dates are epoch milliseconds. -/
def getContestStatus (contest : Contest) (now : ℤ) : ContestStatus :=
  if now < contest.startsAt then ContestStatus.scheduled
  else if contest.endsAt ≤ now then ContestStatus.finished
  else ContestStatus.running

/-- Embeds `isLeaderboardVisible`: `hidden` is never visible, `during` is
always visible, `after` is visible exactly when the contest is finished. -/
def isLeaderboardVisible (contest : Contest) (now : ℤ) : Bool :=
  match contest.leaderboardVisibility with
  | LeaderboardVisibility.hidden => false
  | LeaderboardVisibility.during => true
  | LeaderboardVisibility.after => decide (getContestStatus contest now = ContestStatus.finished)

/-! ## Scoring kernel (src/domain/scoring.ts) -/

inductive DomainError
| INVALID_ARGUMENT
deriving DecidableEq, Repr

structure TypingStats where
  cpm : ℚ
  wpm : ℚ
  accuracy : ℚ
  score : ℚ
  correct : ℚ
  mistakes : ℚ
  elapsedMs : ℚ
deriving DecidableEq, Repr

/-- Body of `calculateTypingStats` after its negative-input guard; the
session evaluator reaches this code with arguments that are never negative. -/
def typingStatsOf (correct mistakes elapsedMs : ℚ) : TypingStats :=
  if elapsedMs ≤ 0 then
    { cpm := 0, wpm := 0, accuracy := if mistakes = 0 then 1 else 0, score := 0,
      correct := correct, mistakes := mistakes, elapsedMs := elapsedMs }
  else
    let elapsedMinutes := elapsedMs / 60000
    let total := correct + mistakes
    let accuracy := if total = 0 then 1 else correct / total
    let cpm := correct / elapsedMinutes
    let wpm := cpm / 5
    let score : ℚ := (⌊cpm * accuracy ^ 2 / 2⌋ : ℤ)
    { cpm := cpm, wpm := wpm, accuracy := accuracy, score := score,
      correct := correct, mistakes := mistakes, elapsedMs := elapsedMs }

/-- Embeds `calculateTypingStats`: negative `correct` or `mistakes` throws
(INVALID_ARGUMENT per the spec taxonomy), otherwise computes the stats. -/
def calculateTypingStats (correct mistakes elapsedMs : ℚ) : Except DomainError TypingStats :=
  if correct < 0 ∨ mistakes < 0 then Except.error DomainError.INVALID_ARGUMENT
  else Except.ok (typingStatsOf correct mistakes elapsedMs)

/-- Reported client metrics; `none` embeds a missing or NaN field, which the
comparison marks with an infinite delta and a forced failure. -/
structure ReportedStats where
  cpm : Option ℚ
  wpm : Option ℚ
  accuracy : Option ℚ
  score : Option ℚ
deriving DecidableEq, Repr

structure StatTolerance where
  cpm : Option ℚ
  wpm : Option ℚ
  accuracy : Option ℚ
  score : Option ℚ
deriving DecidableEq, Repr

/-- Comparison outcome: per-field absolute deltas in source key order, with
`none` embedding the `Infinity` delta of a missing or NaN reported field. -/
structure ComparisonResult where
  ok : Bool
  deltas : List (String × Option ℚ)
deriving DecidableEq, Repr

/-- One field of `compareReportedStats`: missing or NaN reported value gives
an infinite delta and fails; otherwise the absolute difference is checked
against the tolerance. -/
def compareField (expected : ℚ) (reported : Option ℚ) (tol : ℚ) : Bool × Option ℚ :=
  match reported with
  | none => (false, none)
  | some r => (decide (|expected - r| ≤ tol), some |expected - r|)

/-- Embeds `compareReportedStats` over the four keys `cpm, wpm, accuracy,
score`; default tolerances are 1, 1, 0.02 and 1. -/
def compareReportedStats (expected : TypingStats) (reported : ReportedStats)
    (tolerance : StatTolerance) : ComparisonResult :=
  let fCpm := compareField expected.cpm reported.cpm (tolerance.cpm.getD 1)
  let fWpm := compareField expected.wpm reported.wpm (tolerance.wpm.getD 1)
  let fAcc := compareField expected.accuracy reported.accuracy (tolerance.accuracy.getD (2 / 100))
  let fScore := compareField expected.score reported.score (tolerance.score.getD 1)
  { ok := fCpm.1 && fWpm.1 && fAcc.1 && fScore.1,
    deltas := [("cpm", fCpm.2), ("wpm", fWpm.2), ("accuracy", fAcc.2), ("score", fScore.2)] }

/-! ## Keylog replay and anomaly analysis (src/domain/scoring.ts) -/

inductive Issue
| KEY_LIMIT_EXCEEDED
| INVALID_TIMESTAMP
| NEGATIVE_TIMESTAMP
| TIMESTAMP_NOT_SORTED
| ENTRY_NOT_FOUND
| ERROR_COUNT_MISMATCH
| METRIC_MISMATCH
| PROMPT_NOT_COMPLETED
| BACKSPACE_FORBIDDEN
| TIME_LIMIT_EXCEEDED
| LOW_VARIANCE_TYPING
deriving DecidableEq, Repr

/-- A keystroke event. `t = none` embeds a timestamp that is not a finite
number; `k` is the pressed key (the source coerces it to a string). -/
structure KeylogEntry where
  t : Option ℚ
  k : String
  ok : Option Bool
deriving DecidableEq, Repr

def BACKSPACE_KEYS : List String :=
  ["Backspace", "BACKSPACE", "BackspaceKey", "KeyBackspace"]

def MAX_KEYSTROKES : ℕ := 2000

structure ReplayResult where
  correct : ℕ
  mistakes : ℕ
  completed : Bool
  durationMs : ℚ
  issues : List Issue
  forbiddenBackspaceCount : ℕ
  processed : ℕ
deriving DecidableEq, Repr

/-- Loop state of `replayKeylog`. -/
structure ReplayState where
  pointer : ℕ
  mistakes : ℕ
  forbiddenBackspaceCount : ℕ
  lastTime : ℚ
  firstTime : Option ℚ
  issues : List Issue
deriving DecidableEq, Repr

/-- Timestamp bookkeeping of one replay iteration: record the first
timestamp, flag out-of-order timestamps, and advance `lastTime` to the
running maximum. -/
def replayTimeUpdate (st : ReplayState) (t : ℚ) : ReplayState :=
  let st1 := { st with firstTime := match st.firstTime with | none => some t | some f => some f }
  let st2 :=
    if t < st1.lastTime then { st1 with issues := st1.issues ++ [Issue.TIMESTAMP_NOT_SORTED] }
    else st1
  { st2 with lastTime := max st2.lastTime t }

/-- Key handling of one replay iteration: backspace moves or penalises,
overrun past the target counts a mistake, a matching character advances the
pointer, anything else counts a mistake. `Nat` subtraction embeds the
source's `max(0, pointer - 1)`. -/
def replayKeyUpdate (typingTarget : List Char) (allowBackspace : Bool)
    (st : ReplayState) (key : String) : ReplayState :=
  if key ∈ BACKSPACE_KEYS then
    if allowBackspace then { st with pointer := st.pointer - 1 }
    else { st with forbiddenBackspaceCount := st.forbiddenBackspaceCount + 1,
                   mistakes := st.mistakes + 1 }
  else
    match typingTarget[st.pointer]? with
    | none => { st with mistakes := st.mistakes + 1 }
    | some expected =>
        if key = expected.toString then { st with pointer := st.pointer + 1 }
        else { st with mistakes := st.mistakes + 1 }

/-- One iteration of the `replayKeylog` loop: skip entries with a missing or
non-finite timestamp, skip negative timestamps, otherwise do the timestamp
bookkeeping and the key handling. -/
def replayStep (typingTarget : List Char) (allowBackspace : Bool)
    (st : ReplayState) (entry : KeylogEntry) : ReplayState :=
  match entry.t with
  | none => { st with issues := st.issues ++ [Issue.INVALID_TIMESTAMP] }
  | some t =>
      if t < 0 then { st with issues := st.issues ++ [Issue.NEGATIVE_TIMESTAMP] }
      else replayKeyUpdate typingTarget allowBackspace (replayTimeUpdate st t) entry.k

/-- Initial state of the `replayKeylog` loop; the key-limit issue is
recorded up front when the keylog exceeds 2000 entries. -/
def replayInit (processed : ℕ) : ReplayState :=
  { pointer := 0, mistakes := 0, forbiddenBackspaceCount := 0,
    lastTime := 0, firstTime := none,
    issues := if MAX_KEYSTROKES < processed then [Issue.KEY_LIMIT_EXCEEDED] else [] }

/-- Embeds `replayKeylog`: fold the per-entry step over the keylog, starting
from `replayInit`. -/
def replayKeylog (typingTarget : List Char) (keylog : List KeylogEntry)
    (allowBackspace : Bool) : ReplayResult :=
  let processed := keylog.length
  let final := keylog.foldl (replayStep typingTarget allowBackspace) (replayInit processed)
  let durationMs : ℚ :=
    if keylog.length = 0 then 0 else max 0 (final.lastTime - final.firstTime.getD 0)
  let completed : Bool :=
    if typingTarget.length ≤ final.pointer ∧ 0 < typingTarget.length then true
    else decide (typingTarget.length ≤ final.pointer)
  { correct := final.pointer, mistakes := final.mistakes, completed := completed,
    durationMs := durationMs, issues := final.issues,
    forbiddenBackspaceCount := final.forbiddenBackspaceCount, processed := processed }

/-- Interval statistics. The source carries `stdev = sqrt variance` and
`cv = stdev / mean` (or `Infinity` when `mean = 0`), which are irrational;
this embedding carries the variance, and the evaluator's guard on `cv` is
encoded by the equivalent rational inequality (see `lowVarianceFlag`). -/
structure IntervalAnalysis where
  mean : ℚ
  variance : ℚ
  count : ℕ
deriving DecidableEq, Repr

/-- State of the interval-collection loop of `analyseIntervals`: the last
accepted timestamp and the collected non-negative deltas. The loop skips an
entry when its own or the running timestamp is not a finite number, without
updating the running timestamp. -/
def intervalStep (st : Option ℚ × List ℚ) (current : Option ℚ) : Option ℚ × List ℚ :=
  match current, st.1 with
  | some c, some l => (some c, if 0 ≤ c - l then st.2 ++ [c - l] else st.2)
  | _, _ => st

/-- Embeds `analyseIntervals` with variance in place of the standard
deviation (see `IntervalAnalysis`). -/
def analyseIntervals (keylog : List KeylogEntry) : IntervalAnalysis :=
  match keylog with
  | [] => { mean := 0, variance := 0, count := 0 }
  | [_] => { mean := 0, variance := 0, count := 0 }
  | first :: rest =>
      let intervals := (rest.foldl (fun st e => intervalStep st e.t) (first.t, [])).2
      if intervals = [] then { mean := 0, variance := 0, count := 0 }
      else
        let n : ℚ := intervals.length
        let mean := intervals.sum / n
        let variance := (intervals.map (fun v => (v - mean) ^ 2)).sum / n
        { mean := mean, variance := variance, count := intervals.length }

/-- The evaluator's low-variance guard `cv ≠ 0 ∧ cv < 0.1 ∧ count > 10`,
restated rationally: with `cv = sqrt variance / mean` (and `Infinity` when
`mean = 0`), the guard holds iff `mean ≠ 0`, `variance ≠ 0` and
`100 * variance < mean ^ 2`. -/
def lowVarianceFlag (a : IntervalAnalysis) : Bool :=
  decide (a.mean ≠ 0 ∧ a.variance ≠ 0 ∧ 100 * a.variance < a.mean ^ 2 ∧ 10 < a.count)

/-! ## Session evaluator (src/domain/scoring.ts) -/

structure ClientFlags where
  defocus : Option ℕ
  pasteBlocked : Option Bool
  anomalyScore : Option ℚ
deriving DecidableEq, Repr

/-- Client-submitted finish payload. The reported metrics are `Option`:
`none` embeds a missing or NaN value. -/
structure SessionFinishPayload where
  cpm : Option ℚ
  wpm : Option ℚ
  accuracy : Option ℚ
  score : Option ℚ
  errors : Option ℚ
  keylog : Option (List KeylogEntry)
  clientFlags : Option ClientFlags
deriving DecidableEq, Repr

/-- The empty finish payload: no keylog entries and no reported metrics. -/
def emptyPayload : SessionFinishPayload :=
  { cpm := none, wpm := none, accuracy := none, score := none,
    errors := none, keylog := none, clientFlags := none }

structure Prompt where
  typingTarget : List Char
deriving DecidableEq, Repr

structure SessionFinishParams where
  contest : Contest
  prompt : Prompt
  payload : SessionFinishPayload
  entry : Option ContestEntry
  now : ℤ
deriving DecidableEq, Repr

inductive SessionVerdict
| finished
| expired
| dq
deriving DecidableEq, Repr

structure ResultFlags where
  pasteBlocked : Bool
  defocus : ℕ
  anomalyScore : Option ℚ
deriving DecidableEq, Repr

structure SessionFinishResult where
  status : SessionVerdict
  stats : TypingStats
  issues : List Issue
  anomaly : IntervalAnalysis
  flags : ResultFlags
deriving DecidableEq, Repr

/-- The disqualifying issues of the evaluator. -/
def disqualifyingIssues : List Issue :=
  [Issue.METRIC_MISMATCH, Issue.KEY_LIMIT_EXCEEDED, Issue.BACKSPACE_FORBIDDEN]

/-- The evaluator's relaxed tolerances. -/
def evaluatorTolerance : StatTolerance :=
  { cpm := some (3 / 2), wpm := some (3 / 2), accuracy := some (5 / 100), score := some 2 }

/-- The replay performed by `evaluateSessionFinish`. -/
def evalReplay (params : SessionFinishParams) : ReplayResult :=
  replayKeylog params.prompt.typingTarget (params.payload.keylog.getD [])
    params.contest.allowBackspace

/-- The authoritative stats recomputed by `evaluateSessionFinish` over
`max(durationMs, 1)`. -/
def evalStats (params : SessionFinishParams) : TypingStats :=
  typingStatsOf ((evalReplay params).correct : ℚ) ((evalReplay params).mistakes : ℚ)
    (max (evalReplay params).durationMs 1)

/-- The issue list accumulated by `evaluateSessionFinish`, in source push
order: ENTRY_NOT_FOUND, the replay issues, ERROR_COUNT_MISMATCH,
METRIC_MISMATCH, PROMPT_NOT_COMPLETED, BACKSPACE_FORBIDDEN,
TIME_LIMIT_EXCEEDED and LOW_VARIANCE_TYPING. -/
def evalIssues (params : SessionFinishParams) : List Issue :=
  let payload := params.payload
  let replay := evalReplay params
  let comparison := compareReportedStats (evalStats params)
    { cpm := payload.cpm, wpm := payload.wpm, accuracy := payload.accuracy,
      score := payload.score }
    evaluatorTolerance
  let entryIssues := if params.entry.isNone then [Issue.ENTRY_NOT_FOUND] else []
  let errorIssues :=
    match payload.errors with
    | some err => if 1 < |err - (replay.mistakes : ℚ)| then [Issue.ERROR_COUNT_MISMATCH] else []
    | none => []
  let metricIssues := if comparison.ok then [] else [Issue.METRIC_MISMATCH]
  let promptIssues :=
    if replay.completed = false ∧ 0 < params.prompt.typingTarget.length
    then [Issue.PROMPT_NOT_COMPLETED] else []
  let backspaceIssues :=
    if 0 < replay.forbiddenBackspaceCount then [Issue.BACKSPACE_FORBIDDEN] else []
  let timeLimitMs := params.contest.timeLimitSec * 1000
  let timeIssues := if timeLimitMs + 1000 < replay.durationMs then [Issue.TIME_LIMIT_EXCEEDED] else []
  let varianceIssues :=
    if lowVarianceFlag (analyseIntervals (payload.keylog.getD [])) then [Issue.LOW_VARIANCE_TYPING]
    else []
  entryIssues ++ replay.issues ++ errorIssues ++ metricIssues ++
    promptIssues ++ backspaceIssues ++ timeIssues ++ varianceIssues

/-- Embeds `evaluateSessionFinish` from `src/domain/scoring.ts`: replays the
keylog (`evalReplay`), recomputes authoritative stats (`evalStats`),
accumulates the issue list (`evalIssues`), and derives the verdict: it
starts as finished, becomes expired when the replay did not complete, and is
overridden to dq when any disqualifying issue is present. The unused `now`
argument of the source is kept in the parameters. -/
def evaluateSessionFinish (params : SessionFinishParams) : SessionFinishResult :=
  let payload := params.payload
  let flags : ResultFlags :=
    { pasteBlocked := ((payload.clientFlags.bind (fun f => f.pasteBlocked)).getD false),
      defocus := ((payload.clientFlags.bind (fun f => f.defocus)).getD 0),
      anomalyScore := payload.clientFlags.bind (fun f => f.anomalyScore) }
  let allIssues := evalIssues params
  let status0 := SessionVerdict.finished
  let status1 := if (evalReplay params).completed = false then SessionVerdict.expired else status0
  let status2 :=
    if ∃ i ∈ allIssues, i ∈ disqualifyingIssues then SessionVerdict.dq else status1
  { status := status2, stats := evalStats params, issues := allIssues,
    anomaly := analyseIntervals (payload.keylog.getD []), flags := flags }

/-! ## Leaderboard (src/domain/leaderboard.ts) -/

/-- A finished session as projected onto the leaderboard; `endedAt` is the
epoch-millisecond value of the ISO date string. -/
structure LeaderboardSession where
  sessionId : String
  userId : String
  username : Option String
  score : ℚ
  accuracy : ℚ
  cpm : ℚ
  endedAt : ℤ
deriving DecidableEq, Repr

/-- A leaderboard row: the session together with its assigned rank (the
source type extends `LeaderboardSession` with a `rank` field). -/
structure RankedSession where
  session : LeaderboardSession
  rank : ℕ
deriving DecidableEq, Repr

/-- Embeds the `compareSessions` comparator: score desc, accuracy desc,
cpm desc, then `endedAt` (as epoch milliseconds) ascending. -/
def compareSessions (a b : LeaderboardSession) : ℚ :=
  if a.score ≠ b.score then b.score - a.score
  else if a.accuracy ≠ b.accuracy then b.accuracy - a.accuracy
  else if a.cpm ≠ b.cpm then b.cpm - a.cpm
  else ((a.endedAt - b.endedAt : ℤ) : ℚ)

/-- Session `a` sorts no later than `b` under the comparator. -/
def sessionLeq (a b : LeaderboardSession) : Prop := compareSessions a b ≤ 0

instance : DecidableRel sessionLeq :=
  fun a b => inferInstanceAs (Decidable (compareSessions a b ≤ 0))

/-- The ordering key stated by the spec: score desc, accuracy desc, cpm
desc, endedAt asc, as a lexicographic preference relation. -/
def keyLe (a b : LeaderboardSession) : Prop :=
  b.score < a.score ∨ (a.score = b.score ∧
    (b.accuracy < a.accuracy ∨ (a.accuracy = b.accuracy ∧
      (b.cpm < a.cpm ∨ (a.cpm = b.cpm ∧ a.endedAt ≤ b.endedAt)))))

/-- The comparable quadruple used for tie detection. -/
def sessionKey (s : LeaderboardSession) : ℚ × ℚ × ℚ × ℤ :=
  (s.score, s.accuracy, s.cpm, s.endedAt)

/-- The ordering key as a lexicographic product, used to transfer totality
and transitivity from the lexicographic order. -/
def toLexKey (s : LeaderboardSession) : ℚ ×ₗ (ℚ ×ₗ (ℚ ×ₗ ℤ)) :=
  toLex (-s.score, toLex (-s.accuracy, toLex (-s.cpm, s.endedAt)))

/-- The rank-assignment pass of `buildLeaderboard`: `index` is the number of
rows already emitted, `lastRank` the rank of the previous row, and
`lastComparable` the comparable quadruple of the row that started the
current rank group. A row matching it keeps `lastRank`; otherwise it takes
its 1-based position as rank. -/
def rankPass (index lastRank : ℕ) (lastComparable : Option (ℚ × ℚ × ℚ × ℤ)) :
    List LeaderboardSession → List RankedSession
  | [] => []
  | s :: rest =>
      if lastComparable = some (sessionKey s) then
        { session := s, rank := lastRank } ::
          rankPass (index + 1) lastRank lastComparable rest
      else
        { session := s, rank := index + 1 } ::
          rankPass (index + 1) (index + 1) (some (sessionKey s)) rest

structure LeaderboardSummary where
  top : List RankedSession
  total : ℕ
deriving DecidableEq, Repr

structure LeaderboardResult where
  ranked : List RankedSession
  summary : LeaderboardSummary
deriving DecidableEq, Repr

/-- Embeds `buildLeaderboard`: sort a copy of the input by the comparator
(the source uses `Array.prototype.sort`, modelled here as insertion sort by
the same comparator), assign ranks, and return the ranked list with a
summary of the first ten rows and the input length. -/
def buildLeaderboard (sessions : List LeaderboardSession) : LeaderboardResult :=
  let sorted := List.insertionSort sessionLeq sessions
  let ranked := rankPass 0 0 none sorted
  { ranked := ranked,
    summary := { top := ranked.take 10, total := sessions.length } }

/-- Embeds `extractPersonalRank`: the first ranked row of the given user. -/
def extractPersonalRank (ranked : List RankedSession) (userId : String) :
    Option RankedSession :=
  ranked.find? (fun item => item.session.userId = userId)

/-! ## Typing store (src/server/fastifyTypes.ts) -/

inductive SessionStatus
| RUNNING
| FINISHED
| EXPIRED
| DQ
deriving DecidableEq, Repr

/-- A session row as persisted; nullable columns are `Option`. `dqReason`
keeps the issue list that the source serialises with `join(",")`. -/
structure SessionRow where
  id : String
  userId : String
  contestId : String
  promptId : String
  startedAt : ℤ
  status : SessionStatus
  endedAt : Option ℤ
  cpm : Option ℚ
  wpm : Option ℚ
  accuracy : Option ℚ
  errors : Option ℚ
  score : Option ℚ
  defocusCount : ℕ
  pasteBlocked : Bool
  anomalyScore : Option ℚ
  dqReason : Option (List Issue)
deriving DecidableEq, Repr

/-- An entry row: the per-(user, contest) aggregate with the best-ever
fields, all null until the first successful attempt. -/
structure EntryRow where
  id : String
  userId : String
  contestId : String
  attemptsUsed : ℕ
  bestScore : Option ℚ
  bestCpm : Option ℚ
  bestAccuracy : Option ℚ
  lastAttemptAt : Option ℤ
deriving DecidableEq, Repr

structure PromptRow where
  id : String
  displayText : String
  typingTarget : List Char
deriving DecidableEq, Repr

/-- A keystroke row; `tMs = none` embeds the NaN produced by truncating a
missing timestamp. -/
structure KeystrokeRow where
  sessionId : String
  idx : ℕ
  tMs : Option ℤ
  key : String
  ok : Bool
deriving DecidableEq, Repr

/-- The persistent state touched by `finishSession`: contests, prompts,
sessions, entries and keystrokes, as association lists looked up with
`find?` (the unique-key lookups of the source). -/
structure StoreState where
  contests : List Contest
  prompts : List PromptRow
  sessions : List SessionRow
  entries : List EntryRow
  keystrokes : List KeystrokeRow
deriving DecidableEq, Repr

/-- The three domain errors of the store (NotFoundError, ValidationError,
ConflictError). -/
inductive StoreError
| NotFound
| Validation
| Conflict
deriving DecidableEq, Repr

structure FinishSessionOptions where
  sessionId : String
  userId : String
  payload : SessionFinishPayload
  now : ℤ
deriving DecidableEq, Repr

/-- The finish result returned by the store: the evaluation plus
`bestUpdated` and `attemptsUsed`. -/
structure FinishSessionResult extends SessionFinishResult where
  bestUpdated : Bool
  attemptsUsed : ℕ
deriving DecidableEq, Repr

/-- Embeds `isBetterScore`: null best score always improves; otherwise
compare score, then accuracy (null improves), then cpm (null improves);
full ties are not better. The source's `?? 0` fallbacks are dead code in
the branches where they occur (the field is known non-null there). -/
def isBetterScore (existing : EntryRow) (candidate : TypingStats) : Bool :=
  match existing.bestScore with
  | none => true
  | some bestScore =>
      if candidate.score ≠ bestScore then decide (bestScore < candidate.score)
      else
        match existing.bestAccuracy with
        | none => true
        | some bestAccuracy =>
            if candidate.accuracy ≠ bestAccuracy then decide (bestAccuracy < candidate.accuracy)
            else
              match existing.bestCpm with
              | none => true
              | some bestCpm =>
                  if candidate.cpm ≠ bestCpm then decide (bestCpm < candidate.cpm)
                  else false

/-- Modelled from the spec: a null existing field is treated as minus
infinity, so any candidate value strictly exceeds it. -/
def betterThanBot (existing : Option ℚ) (candidate : ℚ) : Prop :=
  match existing with
  | none => True
  | some v => v < candidate

/-- Modelled from the spec: a candidate value never ties with a null
(minus-infinity) existing field. -/
def tiesBot (existing : Option ℚ) (candidate : ℚ) : Prop :=
  match existing with
  | none => False
  | some v => candidate = v

/-- Modelled from the spec: `isBetter(existing, candidate)` is strict
improvement in the lexicographic order (score desc, accuracy desc, cpm
desc) with any null in `existing` treated as minus infinity for that field;
a tie on all three fields is not better. -/
def isBetterSpec (existing : EntryRow) (candidate : TypingStats) : Prop :=
  betterThanBot existing.bestScore candidate.score ∨
    (tiesBot existing.bestScore candidate.score ∧
      (betterThanBot existing.bestAccuracy candidate.accuracy ∨
        (tiesBot existing.bestAccuracy candidate.accuracy ∧
          betterThanBot existing.bestCpm candidate.cpm)))

/-- Embeds `Math.trunc` on rationals: round toward zero. -/
def jsTrunc (q : ℚ) : ℤ := if q < 0 then ⌈q⌉ else ⌊q⌋

/-- Embeds `toSessionStatus` (the `default` arm of the source `switch` is
unreachable over the three-valued verdict type). -/
def toSessionStatus (value : SessionVerdict) : SessionStatus :=
  match value with
  | SessionVerdict.finished => SessionStatus.FINISHED
  | SessionVerdict.expired => SessionStatus.EXPIRED
  | SessionVerdict.dq => SessionStatus.DQ

/-- Embeds `replaceKeystrokes`: delete this session's rows, then insert the
keylog with positional indices, truncated timestamps, and `ok` defaulting
to whether the key is a single character. -/
def replaceKeystrokes (rows : List KeystrokeRow) (sessionId : String)
    (keylog : List KeylogEntry) : List KeystrokeRow :=
  let kept := rows.filter (fun k => k.sessionId ≠ sessionId)
  kept ++ keylog.enum.map (fun p =>
    { sessionId := sessionId, idx := p.1, tMs := p.2.t.map jsTrunc,
      key := p.2.k, ok := p.2.ok.getD (decide (p.2.k.length = 1)) })

/-- The session row after a finish: status, end time, metrics, flags, and
`dqReason` exactly on a dq verdict. -/
def sessionAfterFinish (row : SessionRow) (ev : SessionFinishResult) (now : ℤ) : SessionRow :=
  { row with
    status := toSessionStatus ev.status,
    endedAt := some now,
    cpm := some ev.stats.cpm,
    wpm := some ev.stats.wpm,
    accuracy := some ev.stats.accuracy,
    errors := some ev.stats.mistakes,
    score := some ev.stats.score,
    defocusCount := ev.flags.defocus,
    pasteBlocked := ev.flags.pasteBlocked,
    anomalyScore := ev.flags.anomalyScore,
    dqReason := if ev.status = SessionVerdict.dq then some ev.issues else none }

/-- The entry row after a finish: `lastAttemptAt` always advances, and the
best fields are replaced exactly when the verdict is finished and the new
stats beat the stored best. -/
def applyFinishToEntry (e : EntryRow) (now : ℤ) (ev : SessionFinishResult) : EntryRow :=
  let e1 := { e with lastAttemptAt := some now }
  if ev.status = SessionVerdict.finished ∧ isBetterScore e ev.stats = true then
    { e1 with
      bestScore := some ev.stats.score,
      bestCpm := some ev.stats.cpm,
      bestAccuracy := some ev.stats.accuracy }
  else e1

/-- Embeds `TypingStore.finishSession`: look up the session (NotFound on a
missing row or a user mismatch), reject a non-RUNNING session with
Conflict, load contest, entry and prompt, evaluate the finish, then write
the session row, replace the keystrokes, advance the entry and update the
best fields when the verdict is finished and strictly better. A thrown
error aborts the transaction, so the error cases carry no state. -/
def finishSession (σ : StoreState) (o : FinishSessionOptions) :
    Except StoreError (StoreState × FinishSessionResult) :=
  match σ.sessions.find? (fun row => row.id == o.sessionId) with
  | none => Except.error StoreError.NotFound
  | some sessionRow =>
      if sessionRow.userId ≠ o.userId then Except.error StoreError.NotFound
      else if sessionRow.status ≠ SessionStatus.RUNNING then Except.error StoreError.Conflict
      else
        match σ.contests.find? (fun c => c.id == sessionRow.contestId) with
        | none => Except.error StoreError.NotFound
        | some contest =>
            match σ.entries.find? (fun e =>
                e.userId == o.userId && e.contestId == sessionRow.contestId) with
            | none => Except.error StoreError.NotFound
            | some entryRow =>
                match σ.prompts.find? (fun p => p.id == sessionRow.promptId) with
                | none => Except.error StoreError.NotFound
                | some promptRow =>
                    let evaluation := evaluateSessionFinish
                      { contest := contest,
                        prompt := { typingTarget := promptRow.typingTarget },
                        payload := o.payload,
                        entry := some { attemptsUsed := entryRow.attemptsUsed },
                        now := o.now }
                    let bestUpdated := decide (evaluation.status = SessionVerdict.finished) &&
                      isBetterScore entryRow evaluation.stats
                    let sessions2 := σ.sessions.map (fun row =>
                      if row.id == sessionRow.id then sessionAfterFinish row evaluation o.now
                      else row)
                    let keystrokes2 := replaceKeystrokes σ.keystrokes sessionRow.id
                      (o.payload.keylog.getD [])
                    let entries1 := σ.entries.map (fun row =>
                      if row.id == entryRow.id then { row with lastAttemptAt := some o.now }
                      else row)
                    let entries2 :=
                      if bestUpdated then
                        entries1.map (fun row =>
                          if row.id == entryRow.id then
                            { row with
                              bestScore := some evaluation.stats.score,
                              bestCpm := some evaluation.stats.cpm,
                              bestAccuracy := some evaluation.stats.accuracy }
                          else row)
                      else entries1
                    Except.ok
                      ({ contests := σ.contests, prompts := σ.prompts, sessions := sessions2,
                         entries := entries2, keystrokes := keystrokes2 },
                       { toSessionFinishResult := evaluation, bestUpdated := bestUpdated,
                         attemptsUsed := entryRow.attemptsUsed })

/-- The transaction as a state transition: an error rolls back, leaving the
state unchanged. -/
def finishSessionRun (σ : StoreState) (o : FinishSessionOptions) :
    StoreState × Except StoreError FinishSessionResult :=
  match finishSession σ o with
  | Except.ok p => (p.1, Except.ok p.2)
  | Except.error err => (σ, Except.error err)

/-! ## Concrete inputs used by counterexamples and witnesses -/

/-- Concrete contest with `leaderboardVisibility = during`, already past its
end time at `now = 20`. -/
def c2DuringContest : Contest :=
  { id := "c2", title := "t", visibility := ContestVisibility.publicV,
    startsAt := 0, endsAt := 10, timeLimitSec := 60, maxAttempts := 3,
    allowBackspace := true, leaderboardVisibility := LeaderboardVisibility.during }

/-- Concrete contest with `leaderboardVisibility = after`, finished at
`now = 20`. -/
def c2AfterContest : Contest :=
  { c2DuringContest with id := "c2a", leaderboardVisibility := LeaderboardVisibility.after }

/-- Concrete finish request with a non-empty target and the empty payload. -/
def c1Params : SessionFinishParams :=
  { contest := c2DuringContest, prompt := { typingTarget := "ab".toList },
    payload := emptyPayload, entry := some { attemptsUsed := 0 }, now := 0 }

/-- Finish request with an empty target (vacuously completed), a missing
entry, and reported metrics equal to the authoritative degenerate stats. -/
def c10Params : SessionFinishParams :=
  { contest := c2DuringContest, prompt := { typingTarget := [] },
    payload := { cpm := some 0, wpm := some 0, accuracy := some 1, score := some 0,
                 errors := none, keylog := none, clientFlags := none },
    entry := none, now := 0 }

def demoPrompt : PromptRow :=
  { id := "p1", displayText := "ab", typingTarget := "ab".toList }

/-- A running session owned by user u1 in contest c2 against prompt p1. -/
def demoSessionRow : SessionRow :=
  { id := "sess1", userId := "u1", contestId := "c2", promptId := "p1", startedAt := 0,
    status := SessionStatus.RUNNING, endedAt := none, cpm := none, wpm := none,
    accuracy := none, errors := none, score := none, defocusCount := 0,
    pasteBlocked := false, anomalyScore := none, dqReason := none }

def demoEntryRow : EntryRow :=
  { id := "e1", userId := "u1", contestId := "c2", attemptsUsed := 1, bestScore := none,
    bestCpm := none, bestAccuracy := none, lastAttemptAt := none }

/-- A store with one contest, prompt, running session and entry. -/
def demoStore : StoreState :=
  { contests := [c2DuringContest], prompts := [demoPrompt], sessions := [demoSessionRow],
    entries := [demoEntryRow], keystrokes := [] }

def demoOpts : FinishSessionOptions :=
  { sessionId := "sess1", userId := "u1", payload := emptyPayload, now := 5 }

/-- Fallback result for the unreachable error arm of `demoFinishPair`. -/
def demoFallback : FinishSessionResult :=
  { status := SessionVerdict.expired, stats := typingStatsOf 0 0 0, issues := [],
    anomaly := { mean := 0, variance := 0, count := 0 },
    flags := { pasteBlocked := false, defocus := 0, anomalyScore := none },
    bestUpdated := false, attemptsUsed := 0 }

/-- The state and result of finishing the demo session. -/
def demoFinishPair : StoreState × FinishSessionResult :=
  match finishSession demoStore demoOpts with
  | Except.ok p => p
  | Except.error _ => (demoStore, demoFallback)

/-- The demo store with its session already terminalized. -/
def demoStoreDone : StoreState :=
  { demoStore with sessions := [{ demoSessionRow with status := SessionStatus.FINISHED }] }

/-- The S5 leaderboard scenario: three finished sessions with distinct
comparable quadruples. -/
def demoSessions : List LeaderboardSession :=
  [{ sessionId := "s1", userId := "u1", username := some "Alice",
     score := 500, accuracy := 95, cpm := 400, endedAt := 600 },
   { sessionId := "s2", userId := "u2", username := some "Bob",
     score := 520, accuracy := 92, cpm := 390, endedAt := 0 },
   { sessionId := "s3", userId := "u3", username := some "Carol",
     score := 500, accuracy := 97, cpm := 410, endedAt := 300 }]

/-! # Theorems -/

/-! ## C2: leaderboard visibility -/

/-- C2 counterexample: for a `during` contest the leaderboard is visible even
when the contest status is not `running` (here it is `finished`), refuting
the claimed equivalence for the `during` case. -/
theorem c2_counterexample :
    isLeaderboardVisible c2DuringContest 20 = true ∧
      getContestStatus c2DuringContest 20 ≠ ContestStatus.running := by
  decide

/-- C2 (amended): `isLeaderboardVisible` returns false for `hidden`, true
unconditionally for `during`, and for `after` returns true exactly when the
contest status at `now` is `finished`. -/
theorem c2_amended (c : Contest) (now : ℤ) :
    (c.leaderboardVisibility = LeaderboardVisibility.hidden →
        isLeaderboardVisible c now = false) ∧
    (c.leaderboardVisibility = LeaderboardVisibility.during →
        isLeaderboardVisible c now = true) ∧
    (c.leaderboardVisibility = LeaderboardVisibility.after →
        (isLeaderboardVisible c now = true ↔
          getContestStatus c now = ContestStatus.finished)) := by
  refine ⟨fun h => ?_, fun h => ?_, fun h => ?_⟩
  · simp [isLeaderboardVisible, h]
  · simp [isLeaderboardVisible, h]
  · simp [isLeaderboardVisible, h]

/-- Witness for C2 (amended) at a concrete finished `after` contest. -/
theorem c2_amended_witness :
    (isLeaderboardVisible c2AfterContest 20 = true ↔
      getContestStatus c2AfterContest 20 = ContestStatus.finished) :=
  (c2_amended c2AfterContest 20).2.2 rfl

/-! ## C4: replay conservation -/

theorem replayTimeUpdate_pointer (st : ReplayState) (t : ℚ) :
    (replayTimeUpdate st t).pointer = st.pointer := by
  simp only [replayTimeUpdate]
  split <;> rfl

theorem replayTimeUpdate_mistakes (st : ReplayState) (t : ℚ) :
    (replayTimeUpdate st t).mistakes = st.mistakes := by
  simp only [replayTimeUpdate]
  split <;> rfl

theorem replayKeyUpdate_pointer_le (typingTarget : List Char) (allowBackspace : Bool)
    (st : ReplayState) (key : String) (h : st.pointer ≤ typingTarget.length) :
    (replayKeyUpdate typingTarget allowBackspace st key).pointer ≤ typingTarget.length := by
  unfold replayKeyUpdate
  split
  · split
    · simp only
      omega
    · simpa using h
  · split
    · simpa using h
    next c hg =>
      have hlt : st.pointer < typingTarget.length := (List.getElem?_eq_some.mp hg).1
      split
      · simp only
        omega
      · simpa using h

theorem replayKeyUpdate_sum_le (typingTarget : List Char) (allowBackspace : Bool)
    (st : ReplayState) (key : String) :
    (replayKeyUpdate typingTarget allowBackspace st key).pointer +
        (replayKeyUpdate typingTarget allowBackspace st key).mistakes ≤
      st.pointer + st.mistakes + 1 := by
  unfold replayKeyUpdate
  split
  · split <;> simp only <;> omega
  · split
    · simp only
      omega
    · split <;> simp only <;> omega

theorem replayStep_pointer_le (typingTarget : List Char) (allowBackspace : Bool)
    (st : ReplayState) (entry : KeylogEntry) (h : st.pointer ≤ typingTarget.length) :
    (replayStep typingTarget allowBackspace st entry).pointer ≤ typingTarget.length := by
  rcases ht : entry.t with _ | t
  · simpa [replayStep, ht] using h
  · by_cases hneg : t < 0
    · simpa [replayStep, ht, hneg] using h
    · have := replayKeyUpdate_pointer_le typingTarget allowBackspace
        (replayTimeUpdate st t) entry.k (by rw [replayTimeUpdate_pointer]; exact h)
      simpa [replayStep, ht, hneg] using this

theorem replayStep_sum_le (typingTarget : List Char) (allowBackspace : Bool)
    (st : ReplayState) (entry : KeylogEntry) :
    (replayStep typingTarget allowBackspace st entry).pointer +
        (replayStep typingTarget allowBackspace st entry).mistakes ≤
      st.pointer + st.mistakes + 1 := by
  rcases ht : entry.t with _ | t
  · simp [replayStep, ht]
  · by_cases hneg : t < 0
    · simp [replayStep, ht, hneg]
    · have := replayKeyUpdate_sum_le typingTarget allowBackspace
        (replayTimeUpdate st t) entry.k
      rw [replayTimeUpdate_pointer, replayTimeUpdate_mistakes] at this
      simpa [replayStep, ht, hneg] using this

/-- Loop invariant of the replay fold: the pointer stays within the target
and pointer plus mistakes grows by at most one per processed entry. -/
theorem replay_foldl_inv (typingTarget : List Char) (allowBackspace : Bool) :
    ∀ (l : List KeylogEntry) (st : ReplayState), st.pointer ≤ typingTarget.length →
      (l.foldl (replayStep typingTarget allowBackspace) st).pointer ≤ typingTarget.length ∧
      (l.foldl (replayStep typingTarget allowBackspace) st).pointer +
          (l.foldl (replayStep typingTarget allowBackspace) st).mistakes ≤
        st.pointer + st.mistakes + l.length := by
  intro l
  induction l with
  | nil => intro st hst; simpa using hst
  | cons a l ih =>
      intro st hst
      have h1 := replayStep_pointer_le typingTarget allowBackspace st a hst
      have h2 := replayStep_sum_le typingTarget allowBackspace st a
      have h3 := ih (replayStep typingTarget allowBackspace st a) h1
      refine ⟨by simpa using h3.1, ?_⟩
      have h4 := h3.2
      simp only [List.foldl_cons, List.length_cons]
      omega

/-- C4: for every target, keylog and backspace policy, the replay satisfies
`correct + mistakes ≤ processed + forbiddenBackspaceCount`, and a completed
replay has typed exactly the whole target. -/
theorem c4_replay_conservation (typingTarget : List Char) (keylog : List KeylogEntry)
    (allowBackspace : Bool) :
    (replayKeylog typingTarget keylog allowBackspace).correct +
        (replayKeylog typingTarget keylog allowBackspace).mistakes ≤
      (replayKeylog typingTarget keylog allowBackspace).processed +
        (replayKeylog typingTarget keylog allowBackspace).forbiddenBackspaceCount ∧
    ((replayKeylog typingTarget keylog allowBackspace).completed = true →
      (replayKeylog typingTarget keylog allowBackspace).correct = typingTarget.length) := by
  have hinv := replay_foldl_inv typingTarget allowBackspace keylog
    (replayInit keylog.length) (by simp [replayInit])
  constructor
  · simp only [replayKeylog]
    have := hinv.2
    have hp : (replayInit keylog.length).pointer = 0 := rfl
    have hm : (replayInit keylog.length).mistakes = 0 := rfl
    omega
  · intro hcomp
    simp only [replayKeylog] at hcomp ⊢
    have hle := hinv.1
    split at hcomp
    · omega
    · simp only [decide_eq_true_eq] at hcomp
      omega

/-- Witness for C4 at a concrete completed replay. -/
theorem c4_replay_conservation_witness :
    (replayKeylog "ab".toList
        [{ t := some 0, k := "a", ok := none }, { t := some 100, k := "b", ok := none }]
        false).correct +
        (replayKeylog "ab".toList
          [{ t := some 0, k := "a", ok := none }, { t := some 100, k := "b", ok := none }]
          false).mistakes ≤
      (replayKeylog "ab".toList
          [{ t := some 0, k := "a", ok := none }, { t := some 100, k := "b", ok := none }]
          false).processed +
        (replayKeylog "ab".toList
          [{ t := some 0, k := "a", ok := none }, { t := some 100, k := "b", ok := none }]
          false).forbiddenBackspaceCount ∧
      (replayKeylog "ab".toList
          [{ t := some 0, k := "a", ok := none }, { t := some 100, k := "b", ok := none }]
          false).correct = "ab".toList.length :=
  ⟨(c4_replay_conservation "ab".toList
      [{ t := some 0, k := "a", ok := none }, { t := some 100, k := "b", ok := none }] false).1,
    (c4_replay_conservation "ab".toList
      [{ t := some 0, k := "a", ok := none }, { t := some 100, k := "b", ok := none }] false).2
      (by decide)⟩

/-! ## Evaluator helper lemmas (shared by the C1, C3 and C10 theorems) -/

theorem evalReplay_def (params : SessionFinishParams) :
    evalReplay params =
      replayKeylog params.prompt.typingTarget (params.payload.keylog.getD [])
        params.contest.allowBackspace := rfl

theorem evaluateSessionFinish_issues (params : SessionFinishParams) :
    (evaluateSessionFinish params).issues = evalIssues params := rfl

theorem evaluateSessionFinish_status (params : SessionFinishParams) :
    (evaluateSessionFinish params).status =
      (if ∃ i ∈ evalIssues params, i ∈ disqualifyingIssues then SessionVerdict.dq
       else if (evalReplay params).completed = false then SessionVerdict.expired
       else SessionVerdict.finished) := rfl

/-- The verdict of the evaluator, characterised: dq on any disqualifying
issue in the computed issue set, otherwise finished or expired according to
replay completion. -/
theorem evalStatus_char (params : SessionFinishParams) :
    (evaluateSessionFinish params).status =
      (if ∃ i ∈ (evaluateSessionFinish params).issues, i ∈ disqualifyingIssues
       then SessionVerdict.dq
       else if (replayKeylog params.prompt.typingTarget (params.payload.keylog.getD [])
           params.contest.allowBackspace).completed
         then SessionVerdict.finished
         else SessionVerdict.expired) := by
  rw [evaluateSessionFinish_status, evaluateSessionFinish_issues, ← evalReplay_def]
  by_cases hdq : ∃ i ∈ evalIssues params, i ∈ disqualifyingIssues
  · rw [if_pos hdq, if_pos hdq]
  · rw [if_neg hdq, if_neg hdq]
    cases hcomp : (evalReplay params).completed <;> simp [hcomp]

/-- A finish request without an entry records ENTRY_NOT_FOUND. -/
theorem entry_not_found_mem (params : SessionFinishParams) (h : params.entry = none) :
    Issue.ENTRY_NOT_FOUND ∈ (evaluateSessionFinish params).issues := by
  rw [evaluateSessionFinish_issues]
  unfold evalIssues
  dsimp only
  simp [h, List.mem_append]

/-- A finish request with the empty payload records METRIC_MISMATCH: every
reported metric is missing, so the comparison fails. -/
theorem metric_mismatch_mem_empty (params : SessionFinishParams)
    (h : params.payload = emptyPayload) :
    Issue.METRIC_MISMATCH ∈ (evaluateSessionFinish params).issues := by
  rw [evaluateSessionFinish_issues]
  unfold evalIssues
  dsimp only
  simp [h, emptyPayload, compareReportedStats, compareField, List.mem_append]

/-! ## C3: DQ priority -/

/-- C3: the evaluator returns dq exactly when the computed issue set meets
the disqualifying set (METRIC_MISMATCH, KEY_LIMIT_EXCEEDED or
BACKSPACE_FORBIDDEN), regardless of completion; otherwise it returns
finished when the replay completed the target and expired when it did not. -/
theorem c3_dq_priority (params : SessionFinishParams) :
    (evaluateSessionFinish params).status =
      (if ∃ i ∈ (evaluateSessionFinish params).issues, i ∈ disqualifyingIssues
       then SessionVerdict.dq
       else if (replayKeylog params.prompt.typingTarget (params.payload.keylog.getD [])
           params.contest.allowBackspace).completed
         then SessionVerdict.finished
         else SessionVerdict.expired) :=
  evalStatus_char params

/-! ## C10: a missing entry never changes the verdict -/

/-- C10: when the entry is missing, ENTRY_NOT_FOUND is recorded, and if the
replay completed the target and no disqualifying issue arose the verdict is
still finished. -/
theorem c10_entry_missing (contest : Contest) (prompt : Prompt)
    (payload : SessionFinishPayload) (now : ℤ) :
    Issue.ENTRY_NOT_FOUND ∈
        (evaluateSessionFinish
          { contest := contest, prompt := prompt, payload := payload,
            entry := none, now := now }).issues ∧
    ((replayKeylog prompt.typingTarget (payload.keylog.getD [])
          contest.allowBackspace).completed = true →
      (¬∃ i ∈ (evaluateSessionFinish
            { contest := contest, prompt := prompt, payload := payload,
              entry := none, now := now }).issues, i ∈ disqualifyingIssues) →
      (evaluateSessionFinish
          { contest := contest, prompt := prompt, payload := payload,
            entry := none, now := now }).status = SessionVerdict.finished) := by
  refine ⟨entry_not_found_mem _ rfl, fun hcomp hnodq => ?_⟩
  rw [evalStatus_char]
  simp only at hcomp
  simp [hnodq, hcomp]

/-- The issue list of the C10 witness request evaluates to exactly
ENTRY_NOT_FOUND. -/
theorem c10Params_issues :
    (evaluateSessionFinish c10Params).issues = [Issue.ENTRY_NOT_FOUND] := by
  have hreplay : evalReplay c10Params =
      { correct := 0, mistakes := 0, completed := true, durationMs := 0, issues := [],
        forbiddenBackspaceCount := 0, processed := 0 } := by decide
  rw [evaluateSessionFinish_issues]
  unfold evalIssues evalStats
  rw [hreplay]
  norm_num [c10Params, c2DuringContest, analyseIntervals, lowVarianceFlag,
    compareReportedStats, compareField, evaluatorTolerance, typingStatsOf, max_def]

/-- Witness for C10: a completed, metric-accurate run with a missing entry
still finishes, with ENTRY_NOT_FOUND recorded. -/
theorem c10_entry_missing_witness :
    Issue.ENTRY_NOT_FOUND ∈ (evaluateSessionFinish c10Params).issues ∧
      (evaluateSessionFinish c10Params).status = SessionVerdict.finished :=
  ⟨(c10_entry_missing c2DuringContest { typingTarget := [] } c10Params.payload 0).1,
    (c10_entry_missing c2DuringContest { typingTarget := [] } c10Params.payload 0).2
      (by decide)
      (by
        show ¬∃ i ∈ (evaluateSessionFinish c10Params).issues, i ∈ disqualifyingIssues
        rw [c10Params_issues]
        decide)⟩

/-! ## C1: finishing with the empty payload -/

/-- C1 counterexample: with a non-empty target, finishing with the empty
payload yields the verdict dq, not expired — the missing reported metrics
force METRIC_MISMATCH, which takes DQ priority over the expired
classification. -/
theorem c1_counterexample :
    (evaluateSessionFinish c1Params).status = SessionVerdict.dq ∧
      (evaluateSessionFinish c1Params).status ≠ SessionVerdict.expired := by
  decide

/-- C1 (amended): for every contest and non-empty target, finishing with the
empty payload produces the verdict dq (the missing reported metrics force
METRIC_MISMATCH, a disqualifying issue that overrides expired). -/
theorem c1_empty_payload_dq (contest : Contest) (prompt : Prompt)
    (entry : Option ContestEntry) (now : ℤ) (_h : prompt.typingTarget ≠ []) :
    (evaluateSessionFinish
        { contest := contest, prompt := prompt, payload := emptyPayload,
          entry := entry, now := now }).status = SessionVerdict.dq := by
  have hmem := metric_mismatch_mem_empty
    { contest := contest, prompt := prompt, payload := emptyPayload,
      entry := entry, now := now } rfl
  rw [evalStatus_char]
  exact if_pos ⟨Issue.METRIC_MISMATCH, hmem, by simp [disqualifyingIssues]⟩

/-- Witness for C1 (amended) at a concrete contest and two-character target. -/
theorem c1_empty_payload_dq_witness :
    (evaluateSessionFinish
        { contest := c2DuringContest, prompt := { typingTarget := "ab".toList },
          payload := emptyPayload, entry := some { attemptsUsed := 0 },
          now := 0 }).status = SessionVerdict.dq :=
  c1_empty_payload_dq c2DuringContest { typingTarget := "ab".toList }
    (some { attemptsUsed := 0 }) 0 (by decide)

/-! ## C9: score monotonicity in the correct count -/

/-- C9: for fixed mistakes m ≥ 0 and elapsed time e > 0, the score computed
by `calculateTypingStats` is non-decreasing in the correct count, ranging
over the natural numbers. -/
theorem c9_score_monotone (m e : ℚ) (hm : 0 ≤ m) (he : 0 < e) (c1 c2 : ℕ)
    (hc : c1 ≤ c2) :
    calculateTypingStats (c1 : ℚ) m e = Except.ok (typingStatsOf (c1 : ℚ) m e) ∧
    calculateTypingStats (c2 : ℚ) m e = Except.ok (typingStatsOf (c2 : ℚ) m e) ∧
    (typingStatsOf (c1 : ℚ) m e).score ≤ (typingStatsOf (c2 : ℚ) m e).score := by
  have hc1 : (0 : ℚ) ≤ (c1 : ℚ) := by positivity
  have hc2 : (0 : ℚ) ≤ (c2 : ℚ) := by positivity
  have hok1 : ¬((c1 : ℚ) < 0 ∨ m < 0) := by
    rintro (h | h) <;> linarith
  have hok2 : ¬((c2 : ℚ) < 0 ∨ m < 0) := by
    rintro (h | h) <;> linarith
  refine ⟨by simp [calculateTypingStats, hok1], by simp [calculateTypingStats, hok2], ?_⟩
  have hne : ¬(e ≤ 0) := not_le.mpr he
  have hqc : (c1 : ℚ) ≤ (c2 : ℚ) := by exact_mod_cast hc
  simp only [typingStatsOf, hne, if_false]
  rw [Int.cast_le]
  apply Int.floor_le_floor
  have h60 : (0 : ℚ) < e / 60000 := div_pos he (by norm_num)
  by_cases h1 : (c1 : ℚ) + m = 0
  · have hc10 : (c1 : ℚ) = 0 := by linarith
    rw [hc10]
    simp only [zero_div, zero_mul, zero_add]
    have hcpm2 : (0 : ℚ) ≤ (c2 : ℚ) / (e / 60000) := div_nonneg hc2 h60.le
    exact div_nonneg (mul_nonneg hcpm2 (sq_nonneg _)) (by norm_num)
  · have h1pos : (0 : ℚ) < (c1 : ℚ) + m := lt_of_le_of_ne (by linarith) (Ne.symm h1)
    have h2pos : (0 : ℚ) < (c2 : ℚ) + m := by linarith
    have h2 : (c2 : ℚ) + m ≠ 0 := ne_of_gt h2pos
    have he0 : e ≠ 0 := ne_of_gt he
    rw [if_neg h1, if_neg h2]
    have expand1 : (c1 : ℚ) / (e / 60000) * ((c1 : ℚ) / ((c1 : ℚ) + m)) ^ 2 / 2 =
        30000 * (c1 : ℚ) ^ 3 / (e * ((c1 : ℚ) + m) ^ 2) := by
      field_simp
      ring
    have expand2 : (c2 : ℚ) / (e / 60000) * ((c2 : ℚ) / ((c2 : ℚ) + m)) ^ 2 / 2 =
        30000 * (c2 : ℚ) ^ 3 / (e * ((c2 : ℚ) + m) ^ 2) := by
      field_simp
      ring
    rw [expand1, expand2]
    rw [div_le_div_iff₀ (by positivity) (by positivity)]
    have hdiff : (0 : ℚ) ≤ (c2 : ℚ) - (c1 : ℚ) := by linarith
    have t1 : (0 : ℚ) ≤ (c1 : ℚ) ^ 2 * (c2 : ℚ) ^ 2 * ((c2 : ℚ) - (c1 : ℚ)) := by
      apply mul_nonneg (by positivity) hdiff
    have t2 : (0 : ℚ) ≤ m * (c1 : ℚ) * (c2 : ℚ) * ((c2 : ℚ) + (c1 : ℚ)) * ((c2 : ℚ) - (c1 : ℚ)) := by
      apply mul_nonneg _ hdiff
      positivity
    have t3 : (0 : ℚ) ≤ m ^ 2 * ((c2 : ℚ) ^ 2 + (c1 : ℚ) * (c2 : ℚ) + (c1 : ℚ) ^ 2) *
        ((c2 : ℚ) - (c1 : ℚ)) := by
      apply mul_nonneg _ hdiff
      positivity
    have expandKey : (c2 : ℚ) ^ 3 * ((c1 : ℚ) + m) ^ 2 - (c1 : ℚ) ^ 3 * ((c2 : ℚ) + m) ^ 2 =
        (c1 : ℚ) ^ 2 * (c2 : ℚ) ^ 2 * ((c2 : ℚ) - (c1 : ℚ)) +
          2 * (m * (c1 : ℚ) * (c2 : ℚ) * ((c2 : ℚ) + (c1 : ℚ)) * ((c2 : ℚ) - (c1 : ℚ))) +
          m ^ 2 * ((c2 : ℚ) ^ 2 + (c1 : ℚ) * (c2 : ℚ) + (c1 : ℚ) ^ 2) *
            ((c2 : ℚ) - (c1 : ℚ)) := by
      ring
    nlinarith [t1, t2, t3, expandKey, he.le, sq_nonneg ((c1 : ℚ) + m), sq_nonneg ((c2 : ℚ) + m)]

/-- Witness for C9 at a concrete pair of correct counts. -/
theorem c9_score_monotone_witness :
    calculateTypingStats (1 : ℚ) 1 60000 = Except.ok (typingStatsOf (1 : ℚ) 1 60000) ∧
    calculateTypingStats (2 : ℚ) 1 60000 = Except.ok (typingStatsOf (2 : ℚ) 1 60000) ∧
    (typingStatsOf (1 : ℚ) 1 60000).score ≤ (typingStatsOf (2 : ℚ) 1 60000).score := by
  have h := c9_score_monotone 1 60000 (by norm_num) (by norm_num) 1 2 (by norm_num)
  simpa using h

/-! ## C6: leaderboard ordering and rank assignment -/

theorem keyLe_iff_toLexKey (a b : LeaderboardSession) :
    keyLe a b ↔ toLexKey a ≤ toLexKey b := by
  unfold keyLe toLexKey
  simp only [Prod.Lex.le_iff, neg_lt_neg_iff, neg_inj]

theorem sessionLeq_iff_keyLe (a b : LeaderboardSession) :
    sessionLeq a b ↔ keyLe a b := by
  unfold sessionLeq compareSessions keyLe
  rcases eq_or_ne a.score b.score with h1 | h1
  · rw [if_neg (not_not_intro h1)]
    rcases eq_or_ne a.accuracy b.accuracy with h2 | h2
    · rw [if_neg (not_not_intro h2)]
      rcases eq_or_ne a.cpm b.cpm with h3 | h3
      · rw [if_neg (not_not_intro h3)]
        constructor
        · intro h
          refine Or.inr ⟨h1, Or.inr ⟨h2, Or.inr ⟨h3, ?_⟩⟩⟩
          have hz : ((a.endedAt - b.endedAt : ℤ) : ℚ) ≤ 0 := h
          have : (a.endedAt - b.endedAt : ℤ) ≤ 0 := by exact_mod_cast hz
          omega
        · rintro (hlt | ⟨-, hlt | ⟨-, hlt | ⟨-, hle⟩⟩⟩)
          · linarith
          · linarith
          · linarith
          · have : (a.endedAt - b.endedAt : ℤ) ≤ 0 := by omega
            exact_mod_cast Int.cast_le.mpr this
      · rw [if_pos h3, sub_nonpos]
        constructor
        · intro h
          exact Or.inr ⟨h1, Or.inr ⟨h2, Or.inl (lt_of_le_of_ne h (Ne.symm h3))⟩⟩
        · rintro (hlt | ⟨-, hlt | ⟨-, hlt | ⟨heq, -⟩⟩⟩)
          · linarith
          · linarith
          · exact le_of_lt hlt
          · exact absurd heq h3
    · rw [if_pos h2, sub_nonpos]
      constructor
      · intro h
        exact Or.inr ⟨h1, Or.inl (lt_of_le_of_ne h (Ne.symm h2))⟩
      · rintro (hlt | ⟨-, hlt | ⟨heq, -⟩⟩)
        · linarith
        · exact le_of_lt hlt
        · exact absurd heq h2
  · rw [if_pos h1, sub_nonpos]
    constructor
    · intro h
      exact Or.inl (lt_of_le_of_ne h (Ne.symm h1))
    · rintro (hlt | ⟨heq, -⟩)
      · exact le_of_lt hlt
      · exact absurd heq h1

instance : IsTotal LeaderboardSession sessionLeq :=
  ⟨fun a b => by
    simp only [sessionLeq_iff_keyLe, keyLe_iff_toLexKey]
    exact le_total _ _⟩

instance : IsTrans LeaderboardSession sessionLeq :=
  ⟨fun a b c hab hbc => by
    rw [sessionLeq_iff_keyLe, keyLe_iff_toLexKey] at hab hbc ⊢
    exact le_trans hab hbc⟩

theorem rankPass_map (i r : ℕ) (c : Option (ℚ × ℚ × ℚ × ℤ))
    (l : List LeaderboardSession) :
    (rankPass i r c l).map RankedSession.session = l := by
  induction l generalizing i r c with
  | nil => rfl
  | cons s rest ih =>
      rw [rankPass]
      split <;> simp [ih]

theorem rankPass_length (i r : ℕ) (c : Option (ℚ × ℚ × ℚ × ℤ))
    (l : List LeaderboardSession) :
    (rankPass i r c l).length = l.length := by
  induction l generalizing i r c with
  | nil => rfl
  | cons s rest ih =>
      rw [rankPass]
      split <;> simp [ih]

/-- Adjacent rows of the rank pass: ranks never decrease, and two adjacent
rows share a rank exactly when their comparable quadruples are equal. -/
theorem rankPass_chain (l : List LeaderboardSession) :
    ∀ (i r : ℕ) (c : Option (ℚ × ℚ × ℚ × ℤ)), r ≤ i →
      List.Chain' (fun x y => x.rank ≤ y.rank ∧
        (y.rank = x.rank ↔ sessionKey y.session = sessionKey x.session))
        (rankPass i r c l) := by
  induction l with
  | nil => intro i r c _; simp [rankPass]
  | cons s rest ih =>
      intro i r c hr
      rw [rankPass]
      split
      next hm =>
        rw [List.chain'_cons']
        refine ⟨?_, ih (i + 1) r c (by omega)⟩
        intro y hy
        cases rest with
        | nil => simp [rankPass] at hy
        | cons s2 rest2 =>
            rw [rankPass] at hy
            split at hy
            next hm2 =>
              simp only [List.head?_cons, Option.mem_def, Option.some_inj] at hy
              subst hy
              have hk : sessionKey s2 = sessionKey s := by
                rw [hm] at hm2
                exact Option.some_inj.mp hm2.symm
              simp [hk]
            next hm2 =>
              simp only [List.head?_cons, Option.mem_def, Option.some_inj] at hy
              subst hy
              refine ⟨by simp only; omega, ?_⟩
              simp only
              constructor
              · intro h
                omega
              · intro hk
                rw [hm, hk] at hm2
                exact absurd rfl hm2
      next hm =>
        rw [List.chain'_cons']
        refine ⟨?_, ih (i + 1) (i + 1) (some (sessionKey s)) (by omega)⟩
        intro y hy
        cases rest with
        | nil => simp [rankPass] at hy
        | cons s2 rest2 =>
            rw [rankPass] at hy
            split at hy
            next hm2 =>
              simp only [List.head?_cons, Option.mem_def, Option.some_inj] at hy
              subst hy
              have hk : sessionKey s2 = sessionKey s :=
                Option.some_inj.mp hm2.symm
              simp [hk]
            next hm2 =>
              simp only [List.head?_cons, Option.mem_def, Option.some_inj] at hy
              subst hy
              refine ⟨by simp only; omega, ?_⟩
              simp only
              constructor
              · intro h
                omega
              · intro hk
                rw [hk] at hm2
                exact absurd rfl hm2

/-- The first row emitted by a rank pass started with no previous
comparable takes its 1-based position as rank. -/
theorem rankPass_head_rank (l : List LeaderboardSession) (i r : ℕ)
    (x : RankedSession) (h : (rankPass i r none l).head? = some x) :
    x.rank = i + 1 := by
  cases l with
  | nil => simp [rankPass] at h
  | cons s rest =>
      rw [rankPass, if_neg (by simp)] at h
      simp only [List.head?_cons, Option.some_inj] at h
      rw [← h]

/-- A row whose comparable quadruple differs from its predecessor takes its
1-based position (offset by the starting index) as rank. -/
theorem rankPass_pos (l : List LeaderboardSession) :
    ∀ (i r : ℕ) (c : Option (ℚ × ℚ × ℚ × ℤ)), r ≤ i →
      ∀ (j : ℕ) (x y : RankedSession),
        (rankPass i r c l)[j]? = some x →
        (rankPass i r c l)[j + 1]? = some y →
        sessionKey y.session ≠ sessionKey x.session →
        y.rank = i + j + 2 := by
  induction l with
  | nil =>
      intro i r c _ j x y hx hy hne
      simp [rankPass] at hx
  | cons s rest ih =>
      intro i r c hr j x y hx hy hne
      rw [rankPass] at hx hy
      split at hx
      next hm =>
        rw [if_pos hm] at hy
        cases j with
        | zero =>
            simp only [List.getElem?_cons_zero, Option.some_inj] at hx
            simp only [List.getElem?_cons_succ] at hy
            cases rest with
            | nil => simp [rankPass] at hy
            | cons s2 rest2 =>
                rw [rankPass] at hy
                split at hy
                next hm2 =>
                  exfalso
                  simp only [List.getElem?_cons_zero, Option.some_inj] at hy
                  apply hne
                  rw [← hy, ← hx]
                  show sessionKey s2 = sessionKey s
                  rw [hm] at hm2
                  exact Option.some_inj.mp hm2.symm
                next hm2 =>
                  simp only [List.getElem?_cons_zero, Option.some_inj] at hy
                  rw [← hy]
        | succ j2 =>
            simp only [List.getElem?_cons_succ] at hx hy
            have hstep := ih (i + 1) r c (by omega) j2 x y hx hy hne
            omega
      next hm =>
        rw [if_neg hm] at hy
        cases j with
        | zero =>
            simp only [List.getElem?_cons_zero, Option.some_inj] at hx
            simp only [List.getElem?_cons_succ] at hy
            cases rest with
            | nil => simp [rankPass] at hy
            | cons s2 rest2 =>
                rw [rankPass] at hy
                split at hy
                next hm2 =>
                  exfalso
                  simp only [List.getElem?_cons_zero, Option.some_inj] at hy
                  apply hne
                  rw [← hy, ← hx]
                  show sessionKey s2 = sessionKey s
                  exact Option.some_inj.mp hm2.symm
                next hm2 =>
                  simp only [List.getElem?_cons_zero, Option.some_inj] at hy
                  rw [← hy]
        | succ j2 =>
            simp only [List.getElem?_cons_succ] at hx hy
            have hstep := ih (i + 1) (i + 1) (some (sessionKey s)) (by omega) j2 x y hx hy hne
            omega

/-- C6: `buildLeaderboard` returns a permutation of its input ordered by
(score desc, accuracy desc, cpm desc, endedAt asc); the first row has rank
1; ranks never decrease along the order; two adjacent rows share a rank iff
they agree on all four ordering keys; and a row that differs from its
predecessor takes its 1-based position as rank. -/
theorem c6_leaderboard (sessions : List LeaderboardSession) :
    ((buildLeaderboard sessions).ranked.map RankedSession.session).Perm sessions ∧
    List.Pairwise keyLe ((buildLeaderboard sessions).ranked.map RankedSession.session) ∧
    (∀ x, (buildLeaderboard sessions).ranked.head? = some x → x.rank = 1) ∧
    List.Chain' (fun x y => x.rank ≤ y.rank ∧
      (y.rank = x.rank ↔ sessionKey y.session = sessionKey x.session))
      (buildLeaderboard sessions).ranked ∧
    (∀ (j : ℕ) (x y : RankedSession),
      (buildLeaderboard sessions).ranked[j]? = some x →
      (buildLeaderboard sessions).ranked[j + 1]? = some y →
      sessionKey y.session ≠ sessionKey x.session →
      y.rank = j + 2) := by
  have hmap : ((buildLeaderboard sessions).ranked.map RankedSession.session) =
      List.insertionSort sessionLeq sessions :=
    rankPass_map 0 0 none (List.insertionSort sessionLeq sessions)
  refine ⟨?_, ?_, ?_, ?_, ?_⟩
  · rw [hmap]
    exact List.perm_insertionSort sessionLeq sessions
  · rw [hmap]
    exact (List.sorted_insertionSort sessionLeq sessions).imp
      (fun h => (sessionLeq_iff_keyLe _ _).mp h)
  · intro x hx
    simpa using rankPass_head_rank (List.insertionSort sessionLeq sessions) 0 0 x hx
  · exact rankPass_chain (List.insertionSort sessionLeq sessions) 0 0 none le_rfl
  · intro j x y hx hy hne
    have := rankPass_pos (List.insertionSort sessionLeq sessions) 0 0 none le_rfl j x y hx hy hne
    omega

/-- Witness for C6 at the three-session scenario: concrete order and ranks,
plus the permutation conjunct of the theorem. -/
theorem c6_leaderboard_witness :
    ((buildLeaderboard demoSessions).ranked.map RankedSession.rank = [1, 2, 3] ∧
      (buildLeaderboard demoSessions).ranked.map
        (fun x => x.session.sessionId) = ["s2", "s3", "s1"]) ∧
      ((buildLeaderboard demoSessions).ranked.map RankedSession.session).Perm
        demoSessions :=
  ⟨by
    have hno : ∀ (x : ℚ × ℚ × ℚ × ℤ),
        ((none : Option (ℚ × ℚ × ℚ × ℤ)) = some x) = False := by
      intro x
      simp
    norm_num [buildLeaderboard, demoSessions, List.insertionSort, List.orderedInsert,
      sessionLeq, compareSessions, rankPass, sessionKey, hno],
    (c6_leaderboard demoSessions).1⟩

/-- C8: `calculateTypingStats` rejects a negative `correct` or `mistakes`
count with INVALID_ARGUMENT, and for non-negative counts with
`elapsedMs ≤ 0` it returns `cpm = wpm = score = 0` and accuracy 1 exactly
when there are no mistakes. -/
theorem c8_degenerate (c m e : ℚ) :
    ((c < 0 ∨ m < 0) →
        calculateTypingStats c m e = Except.error DomainError.INVALID_ARGUMENT) ∧
    (0 ≤ c → 0 ≤ m → e ≤ 0 →
        calculateTypingStats c m e =
          Except.ok { cpm := 0, wpm := 0, accuracy := if m = 0 then 1 else 0,
                      score := 0, correct := c, mistakes := m, elapsedMs := e }) := by
  constructor
  · intro h
    simp [calculateTypingStats, h]
  · intro hc hm he
    have hneg : ¬(c < 0 ∨ m < 0) := by
      rintro (h | h) <;> linarith
    simp [calculateTypingStats, hneg, typingStatsOf, he]

/-- Witness for C8 at concrete inputs: a negative count errors, and a
zero-elapsed call returns the degenerate stats. -/
theorem c8_degenerate_witness :
    calculateTypingStats (-1) 0 100 = Except.error DomainError.INVALID_ARGUMENT ∧
      calculateTypingStats 3 2 0 =
        Except.ok { cpm := 0, wpm := 0, accuracy := 0, score := 0,
                    correct := 3, mistakes := 2, elapsedMs := 0 } := by
  constructor
  · exact (c8_degenerate (-1) 0 100).1 (Or.inl (by norm_num))
  · have h := (c8_degenerate 3 2 0).2 (by norm_num) (by norm_num) (by norm_num)
    simpa using h

/-! ## Store helper lemmas (shared by the C5 and C7 theorems) -/

/-- Mapping a function that cannot change the predicate value commutes with
`find?`. -/
theorem find?_map_comm {α : Type} (p : α → Bool) (f : α → α)
    (h : ∀ x, p (f x) = p x) :
    ∀ (l : List α), (l.map f).find? p = (l.find? p).map f := by
  intro l
  induction l with
  | nil => rfl
  | cons a l ih =>
      by_cases ha : p a = true
      · rw [List.map_cons, List.find?_cons_of_pos _ ((h a).trans ha),
          List.find?_cons_of_pos _ ha]
        rfl
      · rw [List.map_cons, List.find?_cons_of_neg _ (by rw [h a]; simpa using ha),
          List.find?_cons_of_neg _ (by simpa using ha), ih]

theorem toSessionStatus_ne_running (v : SessionVerdict) :
    toSessionStatus v ≠ SessionStatus.RUNNING := by
  cases v <;> simp [toSessionStatus]

/-- The source comparison agrees with the spec's lexicographic order with
nulls read as minus infinity. -/
theorem isBetterScore_iff_spec (ex : EntryRow) (cand : TypingStats) :
    isBetterScore ex cand = true ↔ isBetterSpec ex cand := by
  unfold isBetterScore isBetterSpec betterThanBot tiesBot
  rcases hbs : ex.bestScore with _ | bs
  · simp
  · dsimp only
    by_cases h1 : cand.score = bs
    · rw [if_neg (not_not_intro h1)]
      have hlt : ¬ bs < cand.score := by simp [h1]
      rcases hba : ex.bestAccuracy with _ | ba
      · simp [h1, hlt]
      · dsimp only
        by_cases h2 : cand.accuracy = ba
        · rw [if_neg (not_not_intro h2)]
          have hlt2 : ¬ ba < cand.accuracy := by simp [h2]
          rcases hbc : ex.bestCpm with _ | bc
          · simp [h1, hlt, h2, hlt2]
          · dsimp only
            by_cases h3 : cand.cpm = bc
            · rw [if_neg (not_not_intro h3)]
              have hlt3 : ¬ bc < cand.cpm := by simp [h3]
              simp [hlt, hlt2, hlt3]
            · rw [if_pos h3]
              constructor
              · intro hdec
                exact Or.inr ⟨h1, Or.inr ⟨h2, of_decide_eq_true hdec⟩⟩
              · rintro (hbad | ⟨-, hbad2 | ⟨-, hlt3⟩⟩)
                · exact absurd hbad hlt
                · exact absurd hbad2 hlt2
                · exact decide_eq_true hlt3
        · rw [if_pos h2]
          constructor
          · intro hdec
            exact Or.inr ⟨h1, Or.inl (of_decide_eq_true hdec)⟩
          · rintro (hbad | ⟨-, hlt2 | ⟨heq, -⟩⟩)
            · exact absurd hbad hlt
            · exact decide_eq_true hlt2
            · exact absurd heq h2
    · rw [if_pos h1]
      constructor
      · intro hdec
        exact Or.inl (of_decide_eq_true hdec)
      · rintro (hlt2 | ⟨heq, -⟩)
        · exact decide_eq_true hlt2
        · exact absurd heq h1

/-- Anatomy of a successful `finishSession`: the session was found, owned
and RUNNING; the new sessions are the old ones with that row finished; the
new entries advance `lastAttemptAt` and conditionally the best fields. -/
theorem finishSession_ok_spec (σ : StoreState) (o : FinishSessionOptions)
    (σ2 : StoreState) (r : FinishSessionResult)
    (h : finishSession σ o = Except.ok (σ2, r)) :
    ∃ s e, σ.sessions.find? (fun row => row.id == o.sessionId) = some s ∧
      s.userId = o.userId ∧ s.status = SessionStatus.RUNNING ∧
      σ.entries.find? (fun row =>
        row.userId == o.userId && row.contestId == s.contestId) = some e ∧
      r.bestUpdated = (decide (r.status = SessionVerdict.finished) &&
        isBetterScore e r.stats) ∧
      r.attemptsUsed = e.attemptsUsed ∧
      σ2.sessions = σ.sessions.map (fun row =>
        if row.id == s.id then sessionAfterFinish row r.toSessionFinishResult o.now
        else row) ∧
      σ2.entries =
        (if r.bestUpdated then
          (σ.entries.map (fun row =>
            if row.id == e.id then { row with lastAttemptAt := some o.now } else row)).map
            (fun row =>
              if row.id == e.id then
                { row with
                  bestScore := some r.stats.score,
                  bestCpm := some r.stats.cpm,
                  bestAccuracy := some r.stats.accuracy }
              else row)
        else σ.entries.map (fun row =>
          if row.id == e.id then { row with lastAttemptAt := some o.now } else row)) := by
  unfold finishSession at h
  split at h
  next => exact absurd h (by simp)
  next s hfs =>
    split at h
    next hu => exact absurd h (by simp)
    next hu =>
      split at h
      next hst => exact absurd h (by simp)
      next hst =>
        split at h
        next => exact absurd h (by simp)
        next contest hfc =>
          split at h
          next => exact absurd h (by simp)
          next e hfe =>
            split at h
            next => exact absurd h (by simp)
            next promptRow hfp =>
              simp only [Except.ok.injEq, Prod.mk.injEq] at h
              obtain ⟨hσ, hr⟩ := h
              subst hσ
              subst hr
              exact ⟨s, e, hfs, not_ne_iff.mp hu, not_ne_iff.mp hst, hfe,
                rfl, rfl, rfl, rfl⟩

/-! ## C7: finish terminality -/

/-- C7: finishing a session that is not RUNNING fails with Conflict and
leaves the state (sessions, entries, keystrokes) unchanged; consequently,
after a successful finish, a second finish of the same session by the same
user fails with Conflict and leaves the new state unchanged. -/
theorem c7_finish_terminal (σ : StoreState) (o : FinishSessionOptions) :
    (∀ s, σ.sessions.find? (fun row => row.id == o.sessionId) = some s →
      s.userId = o.userId → s.status ≠ SessionStatus.RUNNING →
      finishSessionRun σ o = (σ, Except.error StoreError.Conflict)) ∧
    (∀ σ2 r o2, finishSession σ o = Except.ok (σ2, r) →
      o2.sessionId = o.sessionId → o2.userId = o.userId →
      finishSessionRun σ2 o2 = (σ2, Except.error StoreError.Conflict)) := by
  constructor
  · intro s hs hu hst
    unfold finishSessionRun finishSession
    rw [hs]
    simp [hu, hst]
  · intro σ2 r o2 hok h1 h2
    obtain ⟨s, e, hfs, hu, hst, -, -, -, hsess, -⟩ :=
      finishSession_ok_spec σ o σ2 r hok
    have hpres : ∀ x : SessionRow,
        ((fun row => row.id == o2.sessionId)
          (if x.id == s.id then sessionAfterFinish x r.toSessionFinishResult o.now else x)) =
        ((fun row => row.id == o2.sessionId) x) := by
      intro x
      by_cases hx : x.id == s.id <;> simp [hx, sessionAfterFinish]
    have hfind : σ2.sessions.find? (fun row => row.id == o2.sessionId) =
        some (sessionAfterFinish s r.toSessionFinishResult o.now) := by
      rw [hsess, find?_map_comm _ _ hpres, h1, hfs]
      simp
    unfold finishSessionRun finishSession
    rw [hfind]
    have hu2 : (sessionAfterFinish s r.toSessionFinishResult o.now).userId = o2.userId := by
      simp [sessionAfterFinish, hu, h2]
    have hst2 : (sessionAfterFinish s r.toSessionFinishResult o.now).status ≠
        SessionStatus.RUNNING := by
      simp [sessionAfterFinish]
      exact toSessionStatus_ne_running _
    simp [hu2, hst2]

/-- Witness for C7: finishing an already-FINISHED session conflicts without
state change, and so does re-finishing right after a successful finish. -/
theorem c7_finish_terminal_witness :
    finishSessionRun demoStoreDone demoOpts =
      (demoStoreDone, Except.error StoreError.Conflict) ∧
    finishSessionRun demoFinishPair.1 demoOpts =
      (demoFinishPair.1, Except.error StoreError.Conflict) :=
  ⟨(c7_finish_terminal demoStoreDone demoOpts).1
      { demoSessionRow with status := SessionStatus.FINISHED } rfl rfl (by decide),
    (c7_finish_terminal demoStore demoOpts).2 demoFinishPair.1 demoFinishPair.2 demoOpts
      rfl rfl rfl⟩

/-! ## C5: best-field update -/

/-- C5: a successful finish updates the entry's best fields exactly when
the verdict is finished and `isBetterScore` holds (reported through
`bestUpdated`), `isBetterScore` agrees with the spec's lexicographic order
with nulls as minus infinity, and the stored best score never decreases. -/
theorem c5_best_update (σ : StoreState) (o : FinishSessionOptions) (σ2 : StoreState)
    (r : FinishSessionResult) (s : SessionRow) (e : EntryRow)
    (hrun : finishSession σ o = Except.ok (σ2, r))
    (hs : σ.sessions.find? (fun row => row.id == o.sessionId) = some s)
    (he : σ.entries.find? (fun row =>
      row.userId == o.userId && row.contestId == s.contestId) = some e) :
    (∀ ex cand, isBetterScore ex cand = true ↔ isBetterSpec ex cand) ∧
    r.bestUpdated = (decide (r.status = SessionVerdict.finished) &&
      isBetterScore e r.stats) ∧
    σ2.entries.find? (fun row =>
        row.userId == o.userId && row.contestId == s.contestId) =
      some (applyFinishToEntry e o.now r.toSessionFinishResult) ∧
    (∀ b b2, e.bestScore = some b →
      (applyFinishToEntry e o.now r.toSessionFinishResult).bestScore = some b2 →
      b ≤ b2) := by
  obtain ⟨s2, e2, hfs, hu, hst, hfe, hbu, -, hsess, hent⟩ :=
    finishSession_ok_spec σ o σ2 r hrun
  have hss : s2 = s := by
    rw [hfs] at hs
    exact Option.some_inj.mp hs
  rw [hss] at hfe hsess
  have hee : e2 = e := by
    rw [hfe] at he
    exact Option.some_inj.mp he
  rw [hee] at hbu hent
  refine ⟨isBetterScore_iff_spec, hbu, ?_, ?_⟩
  · have hpres1 : ∀ x : EntryRow,
        ((fun row => row.userId == o.userId && row.contestId == s.contestId)
          (if x.id == e.id then { x with lastAttemptAt := some o.now } else x)) =
        ((fun row => row.userId == o.userId && row.contestId == s.contestId) x) := by
      intro x
      by_cases hx : x.id == e.id <;> simp [hx]
    have hpres2 : ∀ x : EntryRow,
        ((fun row => row.userId == o.userId && row.contestId == s.contestId)
          (if x.id == e.id then
            { x with
              bestScore := some r.stats.score,
              bestCpm := some r.stats.cpm,
              bestAccuracy := some r.stats.accuracy }
          else x)) =
        ((fun row => row.userId == o.userId && row.contestId == s.contestId) x) := by
      intro x
      by_cases hx : x.id == e.id <;> simp [hx]
    rw [hent]
    by_cases hb : r.bestUpdated = true
    · rw [if_pos hb, find?_map_comm _ _ hpres2, find?_map_comm _ _ hpres1, he]
      have hcond : r.status = SessionVerdict.finished ∧ isBetterScore e r.stats = true := by
        rw [hbu] at hb
        simpa [Bool.and_eq_true, decide_eq_true_iff] using hb
      simp only [Option.map_some']
      rw [applyFinishToEntry, if_pos hcond]
      simp
    · rw [if_neg hb, find?_map_comm _ _ hpres1, he]
      have hcond : ¬(r.status = SessionVerdict.finished ∧ isBetterScore e r.stats = true) := by
        rw [hbu] at hb
        simpa [Bool.and_eq_true, decide_eq_true_iff] using hb
      simp only [Option.map_some']
      rw [applyFinishToEntry, if_neg hcond]
      simp
  · intro b b2 hbb hbb2
    rw [applyFinishToEntry] at hbb2
    split at hbb2
    next hcond =>
      simp only at hbb2
      have hb2 : b2 = r.stats.score := by
        simpa using hbb2.symm
      have hbetter := hcond.2
      unfold isBetterScore at hbetter
      rw [hbb] at hbetter
      dsimp only at hbetter
      by_cases hsc : r.stats.score = b
      · simp [hb2, hsc]
      · rw [if_pos hsc] at hbetter
        have : b < r.stats.score := of_decide_eq_true hbetter
        rw [hb2]
        exact le_of_lt this
    next hcond =>
      simp only at hbb2
      rw [hbb] at hbb2
      have : b = b2 := Option.some_inj.mp hbb2
      rw [this]

/-- Witness for C5 at the demo store: the finish computes a dq verdict, so
`bestUpdated` is false and the post-state entry only advances
`lastAttemptAt`. -/
theorem c5_best_update_witness :
    demoFinishPair.2.bestUpdated =
      (decide (demoFinishPair.2.status = SessionVerdict.finished) &&
        isBetterScore demoEntryRow demoFinishPair.2.stats) ∧
    demoFinishPair.1.entries.find? (fun row =>
        row.userId == demoOpts.userId && row.contestId == demoSessionRow.contestId) =
      some (applyFinishToEntry demoEntryRow demoOpts.now
        demoFinishPair.2.toSessionFinishResult) :=
  ⟨(c5_best_update demoStore demoOpts demoFinishPair.1 demoFinishPair.2
      demoSessionRow demoEntryRow rfl rfl rfl).2.1,
    (c5_best_update demoStore demoOpts demoFinishPair.1 demoFinishPair.2
      demoSessionRow demoEntryRow rfl rfl rfl).2.2.1⟩

end TypingBackend
